import Mathlib

/-!
Verification development for the Bambu Lab print-looper repository
(`streamlit_app.py`). G-code texts are modelled as `List Char` (Python `str`
indexes and slices by code point, which `List Char` mirrors exactly); the
UTF-8 encoded size used by the size guards is computed with `Char.utf8Size`.
Python's float divisions `bytes/1024` and `bytes/(1024*1024)` are modelled
as exact rational divisions: the numerators are far below 2^53 and the
denominators are powers of two, so the float comparisons in the source are
exact and agree with the rational ones.
-/

set_option maxRecDepth 4000

abbrev LC := List Char

/-- Python `str.find(sub)`: index of the first occurrence of `sub` in `t`,
`none` for Python's `-1`. -/
def pyFind (t sub : LC) : Option Nat :=
  (List.range (t.length + 1)).find? (fun i => (t.drop i).take sub.length == sub)

/-- Python `str.rfind(sub)`: index of the last occurrence of `sub` in `t`. -/
def pyRFind (t sub : LC) : Option Nat :=
  (List.range (t.length + 1)).reverse.find? (fun i => (t.drop i).take sub.length == sub)

/-- Python `sub in hay` for strings. -/
def containsSub (hay sub : LC) : Bool :=
  (pyFind hay sub).isSome

/-- Python `str.split('\n')`. -/
def splitLines : LC → List LC
  | [] => [[]]
  | '\n' :: cs => [] :: splitLines cs
  | c :: cs =>
    match splitLines cs with
    | [] => [[c]]
    | line :: rest => (c :: line) :: rest

/-- Python `str.endswith(suf)`. -/
def endsWithL (l suf : LC) : Bool :=
  l.drop (l.length - suf.length) == suf

/-- Python `str.strip()` (ASCII whitespace suffices for the inputs involved). -/
def pyStrip (l : LC) : LC :=
  ((l.dropWhile Char.isWhitespace).reverse.dropWhile Char.isWhitespace).reverse

/-- Number of bytes of the UTF-8 encoding of the text (Python `len(s.encode('utf-8'))`). -/
def utf8Len (l : LC) : Nat :=
  (l.map Char.utf8Size).sum

/-- Python `"".join(parts)`. -/
def joinLC (ls : List LC) : LC :=
  ls.flatten

-- ===== Exceptions and limits (source lines 10-22) =====

inductive PErr where
  | noBoundaries   -- "Could not parse G-code structure"
  | bodyTooShort   -- "Invalid print content length"
  | noGcodeEntry   -- "No .gcode asset found in ..."
  deriving DecidableEq

inductive VErr where
  | loops | files | sweepSize
  deriving DecidableEq

inductive GErr where
  | parse (e : PErr)
  | validation (e : VErr)
  | size
  deriving DecidableEq

def MAX_OUTPUT_GCODE_MB : Nat := 40

def MAX_LOOPS : Nat := 50

def MAX_FILES : Nat := 20

def MAX_CUSTOM_SWEEP_KB : Nat := 64

-- ===== Section locator (source `find_gcode_sections`, lines 118-179) =====

structure GDoc where
  header : LC
  body : LC
  footer : LC
  deriving DecidableEq

def startMarkers : List LC :=
  [ ";LAYER:0".toList
  , "; layer 0".toList
  , ";TYPE:WALL-OUTER".toList
  , "G1 Z0.3".toList
  , "; retract extruder".toList ]

def endMarkers : List LC :=
  [ ";END gcode".toList
  , ";End of Gcode".toList
  , ";end of print".toList
  , "M104 S0".toList
  , "M140 S0".toList ]

/-- Primary scan for the start boundary: first marker in list order that is
found anywhere in the text wins; position is its first occurrence. -/
def primaryStart (t : LC) : Option Nat :=
  startMarkers.findSome? (fun m => pyFind t m)

/-- Primary scan for the end boundary: first marker in list order found
anywhere wins; position is the last occurrence of that marker. -/
def primaryEnd (t : LC) : Option Nat :=
  endMarkers.findSome? (fun m => pyRFind t m)

/-- One line of the fallback line scan (source lines 157-162). The start
assignment is guarded by `start == -1`; the end assignment is not. -/
def fallbackStep (t : LC) (acc : Option Nat × Option Nat) (line : LC) :
    Option Nat × Option Nat :=
  let s := acc.1
  let e := acc.2
  let s1 := if s.isNone && (containsSub line "G1".toList || containsSub line "G0".toList)
               && containsSub line "Z".toList
            then pyFind t line else s
  let e1 := if containsSub line "M104 S0".toList || containsSub line "M140 S0".toList
               || containsSub line "G28".toList
            then pyFind t line else e
  (s1, e1)

/-- The resolved (start, end) boundaries: primary marker scan, then the
line-by-line fallback when either boundary is still unresolved. -/
def resolvedBounds (t : LC) : Option Nat × Option Nat :=
  let s0 := primaryStart t
  let e0 := primaryEnd t
  if s0.isNone || e0.isNone then (splitLines t).foldl (fallbackStep t) (s0, e0)
  else (s0, e0)

/-- `find_gcode_sections` (source lines 118-179): split the text into
header / print moves / footer, rejecting unlocatable boundaries and
bodies shorter than 100 characters. -/
def find_gcode_sections (t : LC) : Except PErr GDoc :=
  match resolvedBounds t with
  | (some s, some e) =>
    let header := t.take s
    let body := (t.drop s).take (e - s)
    let footer := t.drop e
    if body.length < 100 then .error .bodyTooShort
    else .ok ⟨header, body, footer⟩
  | _ => .error .noBoundaries

-- ===== Pattern library (source `get_sweep_pattern`, lines 52-72) =====

def get_sweep_pattern : LC :=
  ("\n; --- AUTO SWEEP START ---\nM400\nG91\nG1 Z5 F2000\nG90\nG1 X0 Y220 F6000\nG1 X0 Y0 F6000\nG1 X55 Y220 F6000\nG1 X55 Y0 F6000\nG1 X110 Y220 F6000\nG1 X110 Y0 F6000\nG1 X165 Y220 F6000\nG1 X165 Y0 F6000\nG1 X220 Y220 F6000\nG1 X220 Y0 F6000\nM400\n; --- AUTO SWEEP END ---\n").toList

/-- Sweep resolution shared by both assemblers (source lines 224 and 255):
`(override.strip() + "\n") if override and override.strip() else get_sweep_pattern()`. -/
def resolveSweep (override : Option LC) : LC :=
  match override with
  | none => get_sweep_pattern
  | some o => if pyStrip o = [] then get_sweep_pattern else pyStrip o ++ ['\n']

def natStr (n : Nat) : LC := (Nat.repr n).toList

-- ===== Single-source assembler (source `create_looped_gcode`, lines 221-248) =====

/-- One element of the source's `parts` list, tagged by its role. Rendering a
piece (below) yields exactly the string the source appends. -/
inductive LoopPiece where
  | headerP (h : LC)
  | loopStartMark (i : Nat)
  | bodyP (b : LC)
  | loopEndMark (i : Nat)
  | waitSweep (sec : Nat) (minutes : Nat) (sweep : LC)
  | finalSweepMark
  | sweepP (s : LC)
  | homeP
  | footerP (f : LC)
  deriving DecidableEq

def renderLoopPiece : LoopPiece → LC
  | .headerP h => h
  | .loopStartMark i => "\n; === LOOP ".toList ++ natStr i ++ " START ===\n".toList
  | .bodyP b => b
  | .loopEndMark i => "\n; === LOOP ".toList ++ natStr i ++ " END ===\n".toList
  | .waitSweep sec minutes sweep =>
      "\n; --- WAITING AND SWEEPING ---\nM400\nG4 S".toList ++ natStr sec
        ++ " ; wait ".toList ++ natStr minutes ++ " minutes\n".toList ++ sweep ++ ['\n']
  | .finalSweepMark => "\n; --- FINAL SWEEP ---\n".toList
  | .sweepP s => s
  | .homeP => "G28 ; home all axes\n".toList
  | .footerP f => f

/-- The `for i in range(num_loops)` part of the source's `parts` list:
`i` is the current index, `r` the number of iterations still to run
(initially `i = 0`, `r = total = num_loops`). -/
def loopBlocks (total : Nat) (body : LC) (sec minutes : Nat) (sweep : LC) :
    Nat → Nat → List LoopPiece
  | _, 0 => []
  | i, r + 1 =>
    [.loopStartMark (i + 1), .bodyP body, .loopEndMark (i + 1)]
      ++ (if i < total - 1 then [.waitSweep sec minutes sweep] else [])
      ++ loopBlocks total body sec minutes sweep (i + 1) r

/-- The full `parts` list of `create_looped_gcode` (source lines 227-243). -/
def createLoopedParts (doc : GDoc) (num_loops sweep_interval_min : Nat)
    (sweep : LC) (disable_final_home : Bool) : List LoopPiece :=
  .headerP doc.header
    :: loopBlocks num_loops doc.body (sweep_interval_min * 60) sweep_interval_min sweep 0 num_loops
    ++ [.finalSweepMark, .sweepP sweep]
    ++ (if disable_final_home then [] else [.homeP])
    ++ [.footerP doc.footer]

/-- `"".join(parts)` for the single-source assembler. -/
def renderLoopedAssembly (doc : GDoc) (num_loops sweep_interval_min : Nat)
    (override : Option LC) (disable_final_home : Bool) : LC :=
  joinLC ((createLoopedParts doc num_loops sweep_interval_min
            (resolveSweep override) disable_final_home).map renderLoopPiece)

/-- `len(s.encode('utf-8')) / (1024*1024)` (source line 216-217), exact. -/
def approx_size_mb (l : LC) : ℚ :=
  (utf8Len l : ℚ) / (1024 * 1024)

/-- `create_looped_gcode` (source lines 221-248): locate sections, assemble
the looped text, reject it as a whole when it exceeds the size ceiling. -/
def create_looped_gcode (gcode_text : LC) (num_loops sweep_interval_min : Nat)
    (sweep_pattern_override : Option LC) (disable_final_home : Bool) :
    Except GErr LC :=
  match find_gcode_sections gcode_text with
  | .error e => .error (.parse e)
  | .ok doc =>
    let out := renderLoopedAssembly doc num_loops sweep_interval_min
                 sweep_pattern_override disable_final_home
    if approx_size_mb out > (MAX_OUTPUT_GCODE_MB : ℚ) then .error .size
    else .ok out

-- ===== Container model and rewriter (source `wrap_in_3mf`, lines 24-48) =====

/-- Zip method identifiers: 0 = `ZIP_STORED`, 8 = `ZIP_DEFLATED`. An entry is
kept in its logical (decompressed) form; `method` records how it is stored. -/
structure ZEntry where
  ename : LC
  content : LC
  method : Nat
  deriving DecidableEq

/-- `zin.read(n)`: logical content of the first entry named `n` (zip decoding
is lossless, so reading returns the stored logical content unchanged). -/
def zread (pkg : List ZEntry) (n : LC) : LC :=
  ((pkg.find? (fun e => e.ename == n)).map (fun e => e.content)).getD []

/-- `wrap_in_3mf` (source lines 24-48): replace the first `.gcode` entry with
the new text; every entry of the output archive is written with
`zipfile.writestr` under the archive's `ZIP_DEFLATED` compression. -/
def wrap_in_3mf (new_gcode_text : LC) (pkg : List ZEntry) :
    Except GErr (List ZEntry) :=
  match (pkg.map (fun e => e.ename)).filter (fun n => endsWithL n ".gcode".toList) with
  | [] => .error (.parse .noGcodeEntry)
  | target :: _ =>
    .ok ((pkg.map (fun e => e.ename)).map (fun n =>
      if n == target then ⟨n, new_gcode_text, 8⟩ else ⟨n, zread pkg n, 8⟩))

/-- `extract_first_gcode_from_3mf` (source lines 190-206): logical text of the
first `.gcode` entry. (Byte decoding with encoding fallback is lossless for
the texts modelled here, so the entry's logical content is returned directly.) -/
def extract_first_gcode_from_3mf (pkg : List ZEntry) : Except GErr LC :=
  match pkg.find? (fun e => endsWithL e.ename ".gcode".toList) with
  | some e => .ok e.content
  | none => .error (.parse .noGcodeEntry)

-- ===== Multi-source combiner (source `build_combined_looped_gcode`, lines 250-295) =====

/-- One element of the combiner's `base_parts` list (source lines 261-273). -/
inductive BPiece where
  | headerB (h : LC)
  | baseStartMark
  | fileStartMark (n : Nat) (name : LC)
  | bodyB (b : LC)
  | fileEndMark (n : Nat) (name : LC)
  | fileWait (sec minutes : Nat)
  | sweepBF (s : LC)
  | baseEndMark
  deriving DecidableEq

def renderBPiece : BPiece → LC
  | .headerB h => h
  | .baseStartMark => "\n; === COMBINED FILES BASE SEQUENCE START ===\n".toList
  | .fileStartMark n name =>
      "\n; --- FILE ".toList ++ natStr n ++ ": ".toList ++ name ++ " START ---\n".toList
  | .bodyB b => b
  | .fileEndMark n name =>
      "\n; --- FILE ".toList ++ natStr n ++ ": ".toList ++ name ++ " END ---\n".toList
  | .fileWait sec minutes =>
      "\n; WAIT BEFORE NEXT FILE\nG4 S".toList ++ natStr sec
        ++ " ; wait ".toList ++ natStr minutes ++ " minutes\n".toList
  | .sweepBF s => "\n; SWEEP BETWEEN FILES\n".toList ++ s
  | .baseEndMark => "\n; === COMBINED FILES BASE SEQUENCE END ===\n".toList

/-- The `for idx, uf in enumerate(three_mf_files)` part of `base_parts`
(source lines 262-271): the per-file wait and the between-files sweep are
both nested under the `sweep_between_files` guard, exactly as in the source. -/
def baseFileBlocks (total : Nat) (sweep_between_files : Bool)
    (per_file_wait_min : Nat) (sweep : LC) :
    Nat → List (LC × LC) → List BPiece
  | _, [] => []
  | i, (name, body) :: rest =>
    [.fileStartMark (i + 1) name, .bodyB body, .fileEndMark (i + 1) name]
      ++ (if i < total - 1 && sweep_between_files then
            (if 0 < per_file_wait_min then
               [.fileWait (per_file_wait_min * 60) per_file_wait_min] else [])
              ++ [.sweepBF sweep]
          else [])
      ++ baseFileBlocks total sweep_between_files per_file_wait_min sweep (i + 1) rest

/-- The full `base_parts` list (source lines 261-273); `files` pairs each
upload's name with its document body. -/
def buildBaseParts (header : LC) (files : List (LC × LC))
    (sweep_between_files : Bool) (per_file_wait_min : Nat) (sweep : LC) :
    List BPiece :=
  .headerB header :: .baseStartMark
    :: baseFileBlocks files.length sweep_between_files per_file_wait_min sweep 0 files
    ++ [.baseEndMark]

/-- One element of the combiner's `loop_parts` list (source lines 276-290). -/
inductive CombPiece where
  | topMark
  | loopStartC (i : Nat)
  | baseC (b : LC)
  | loopEndC (i : Nat)
  | betweenLoops (sec minutes : Nat) (sweep : LC)
  | finalMarkC (noHome : Bool)
  | sweepC (s : LC)
  | homeC
  | endMark
  deriving DecidableEq

def renderCombPiece : CombPiece → LC
  | .topMark => "; === MULTI-FILE LOOPED FARM MODE START ===\n".toList
  | .loopStartC i => "\n; ===== LOOP ".toList ++ natStr i ++ " START =====\n".toList
  | .baseC b => b
  | .loopEndC i => "\n; ===== LOOP ".toList ++ natStr i ++ " END =====\n".toList
  | .betweenLoops sec minutes sweep =>
      "\n; --- BETWEEN LOOP SEQUENCES ---\nG4 S".toList ++ natStr sec
        ++ " ; wait ".toList ++ natStr minutes ++ " minutes\n".toList ++ sweep
  | .finalMarkC noHome =>
      "\n; FINAL SWEEP".toList
        ++ (if noHome then " (NO HOME)".toList else " & HOME".toList) ++ ['\n']
  | .sweepC s => s
  | .homeC => "\nG28".toList
  | .endMark => "\n; === MULTI-FILE LOOPED FARM MODE END ===\n".toList

/-- The `for li in range(num_loops)` part of `loop_parts` (source lines 277-285). -/
def combLoopBlocks (total : Nat) (base : LC) (sec minutes : Nat) (sweep : LC) :
    Nat → Nat → List CombPiece
  | _, 0 => []
  | i, r + 1 =>
    [.loopStartC (i + 1), .baseC base, .loopEndC (i + 1)]
      ++ (if i < total - 1 then [.betweenLoops sec minutes sweep] else [])
      ++ combLoopBlocks total base sec minutes sweep (i + 1) r

/-- The full `loop_parts` list (source lines 276-290). -/
def buildCombinedParts (base : LC) (num_loops sweep_interval_min : Nat)
    (sweep : LC) (disable_final_home : Bool) : List CombPiece :=
  .topMark
    :: combLoopBlocks num_loops base (sweep_interval_min * 60) sweep_interval_min sweep 0 num_loops
    ++ [.finalMarkC disable_final_home, .sweepC sweep]
    ++ (if disable_final_home then [] else [.homeC])
    ++ [.endMark]

/-- The pure core of the combiner, over already-located documents paired with
their upload names: header of the first document, bodies of all documents in
order, footers discarded (source lines 257-292). -/
def combineDocs (docs : List (LC × GDoc)) (num_loops sweep_interval_min : Nat)
    (sweep_between_files : Bool) (per_file_wait_min : Nat) (sweep : LC)
    (disable_final_home : Bool) : LC :=
  joinLC ((buildCombinedParts
      (joinLC ((buildBaseParts (((docs.head?).map (fun p => p.2.header)).getD [])
          (docs.map (fun p => (p.1, p.2.body)))
          sweep_between_files per_file_wait_min sweep).map renderBPiece))
      num_loops sweep_interval_min sweep disable_final_home).map renderCombPiece)

def liftP : Except PErr α → Except GErr α
  | .ok a => .ok a
  | .error e => .error (.parse e)

/-- Extraction and location of every input's sections, in upload order
(the source locates the first file's sections twice — once for the header,
once in the loop; by purity both runs return the same document). -/
def parseAllFiles (files : List (LC × List ZEntry)) :
    Except GErr (List (LC × GDoc)) :=
  files.mapM (fun f => do
    let t ← extract_first_gcode_from_3mf f.2
    let d ← liftP (find_gcode_sections t)
    pure (f.1, d))

/-- `build_combined_looped_gcode` (source lines 250-295). -/
def build_combined_looped_gcode (files : List (LC × List ZEntry))
    (num_loops sweep_interval_min : Nat) (sweep_between_files : Bool)
    (per_file_wait_min : Nat) (sweep_pattern_override : Option LC)
    (disable_final_home : Bool) : Except GErr LC :=
  match parseAllFiles files with
  | .error e => .error e
  | .ok docs =>
    if approx_size_mb (combineDocs docs num_loops sweep_interval_min sweep_between_files
         per_file_wait_min (resolveSweep sweep_pattern_override) disable_final_home)
       > (MAX_OUTPUT_GCODE_MB : ℚ)
    then .error .size
    else .ok (combineDocs docs num_loops sweep_interval_min sweep_between_files
         per_file_wait_min (resolveSweep sweep_pattern_override) disable_final_home)

-- ===== Limit guard and request pipeline (source lines 208-214, 379-424) =====

/-- `enforce_limits` (source lines 208-214). Python's `custom_sweep and ...`
checks truthiness, i.e. that the override string is non-empty. -/
def enforce_limits (num_loops files_count : Nat) (custom_sweep : LC) :
    Except VErr Unit :=
  if MAX_LOOPS < num_loops then .error .loops
  else if MAX_FILES < files_count then .error .files
  else if custom_sweep ≠ [] ∧ (MAX_CUSTOM_SWEEP_KB : ℚ) < (utf8Len custom_sweep : ℚ) / 1024
  then .error .sweepSize
  else .ok ()

/-- The guarded processing block of the UI (source lines 379-424), with the
assemblers abstracted as parameters: `enforce_limits` runs first, and on its
failure the result is the validation error no matter what the assemblers do. -/
def processRequest (asmSingle : LC → Except GErr LC)
    (asmMulti : List (LC × List ZEntry) → Except GErr LC)
    (files : List (LC × List ZEntry)) (num_loops : Nat) (custom_sweep : LC) :
    Except GErr LC :=
  match enforce_limits num_loops files.length custom_sweep with
  | .error e => .error (.validation e)
  | .ok _ =>
    match files with
    | [f] => (extract_first_gcode_from_3mf f.2).bind asmSingle
    | _ => asmMulti files

def c2text : LC :=
  "; retract extruder then filler stuff ;LAYER:0 tail".toList

def c5text : LC := "M104 S0 abc ;LAYER:0".toList

def c6text : LC :=
  ("H1\n;LAYER:0\nG1 X1 Y1 E5\nG1 X2 Y2 E6\nG1 X3 Y3 E7\nG1 X4 Y4 E8\nG1 X5 Y5 E9\nG1 X6 Y6 E10\nG1 X7 Y7 E11\nG1 X8 Y8 E12\nM104 S0\nM140 S0\n").toList

def c6doc : GDoc :=
  match find_gcode_sections c6text with
  | .ok d => d
  | .error _ => ⟨[], [], []⟩

def c4wtext : LC := ";LAYER:0 abc M104 S0".toList

def c4text : LC :=
  "M104 S0\nG0 Z9 ".toList ++ List.replicate 120 'x' ++ "\nG28 HOME\n".toList

def returnedEndPos : Except PErr GDoc → Option Nat
  | .ok d => some (d.header.length + d.body.length)
  | .error _ => none

def isOkE : Except ε α → Bool
  | .ok _ => true
  | .error _ => false

-- ===== C3: n bodies and n-1 inter-loop waits =====

def LoopPiece.isBody : LoopPiece → Bool
  | .bodyP _ => true
  | _ => false

def LoopPiece.isWaitSweep : LoopPiece → Bool
  | .waitSweep _ _ _ => true
  | _ => false

def CombPiece.isBase : CombPiece → Bool
  | .baseC _ => true
  | _ => false

def CombPiece.isBetween : CombPiece → Bool
  | .betweenLoops _ _ _ => true
  | _ => false

-- ===== C1: per-file waits and between-files sweeps =====

def BPiece.isFileWait : BPiece → Bool
  | .fileWait _ _ => true
  | _ => false

def BPiece.isSweepBF : BPiece → Bool
  | .sweepBF _ => true
  | _ => false

-- ===== C10: the combiner discards every footer =====

/-- The data of a source document the combiner actually consumes: upload
name, header, body — the footer is absent. -/
def stripF (p : LC × GDoc) : LC × LC × LC := (p.1, p.2.header, p.2.body)

def bodyOfB : BPiece → Option LC
  | .bodyB b => some b
  | _ => none

/-- `combineDocs` written over footer-free data only. -/
def combineDocsCore (l : List (LC × LC × LC)) (num_loops sweep_interval_min : Nat)
    (sweep_between_files : Bool) (per_file_wait_min : Nat) (sweep : LC)
    (disable_final_home : Bool) : LC :=
  joinLC ((buildCombinedParts
      (joinLC ((buildBaseParts (((l.head?).map (fun p => p.2.1)).getD [])
          (l.map (fun p => (p.1, p.2.2)))
          sweep_between_files per_file_wait_min sweep).map renderBPiece))
      num_loops sweep_interval_min sweep disable_final_home).map renderCombPiece)

def combinerEndMark : LC := "\n; === MULTI-FILE LOOPED FARM MODE END ===\n".toList

def c10docsA : List (LC × GDoc) :=
  [("f1".toList, ⟨"hdr1".toList, "body1".toList, "FOOTER-ONE".toList⟩),
   ("f2".toList, ⟨"hdr2".toList, "body2".toList, "FOOTER-TWO".toList⟩)]

def c10docsB : List (LC × GDoc) :=
  [("f1".toList, ⟨"hdr1".toList, "body1".toList, "other".toList⟩),
   ("f2".toList, ⟨"hdr2".toList, "body2".toList, []⟩)]

def c8out : LC := renderLoopedAssembly c6doc 2 1 none false

def c9pkgW : List ZEntry :=
  [⟨"m.gcode".toList, "OLD".toList, 8⟩, ⟨"cfg.txt".toList, "CC".toList, 0⟩]

def c9pkg : List ZEntry :=
  [⟨"a.gcode".toList, "AA".toList, 8⟩, ⟨"b.txt".toList, "BB".toList, 0⟩]

-- ===== Theorems =====

-- ===== Shared helper lemmas =====

theorem findSome?_append_none {α β : Type} (f : α → Option β) :
    ∀ (pre rest : List α), (∀ x ∈ pre, f x = none) →
      (pre ++ rest).findSome? f = rest.findSome? f := by
  intro pre rest h
  induction pre with
  | nil => rfl
  | cons a as ih =>
    have ha : f a = none := h a (by simp)
    simp only [List.cons_append, List.findSome?_cons, ha]
    exact ih (fun x hx => h x (by simp [hx]))

theorem joinLC_append_singleton (l : List LC) (x : LC) :
    joinLC (l ++ [x]) = joinLC l ++ x := by
  simp [joinLC, List.flatten_append]

theorem endsWithL_append (a suf : LC) : endsWithL (a ++ suf) suf = true := by
  unfold endsWithL
  rw [List.length_append, Nat.add_sub_cancel, List.drop_left]
  simp

-- ===== C2: marker-list priority beats text position =====

/-- C2: the primary pass of the section locator selects the start boundary by
start-marker list priority, not text position: whenever the marker list splits
as `pre ++ m :: post` with no marker of `pre` occurring in the text and `m`
occurring somewhere, the chosen start position is the first occurrence of `m`
(`pyFind t m`), even if a lower-priority marker occurs earlier in the raw text. -/
theorem c2_start_marker_priority (t m : LC) (pre post : List LC)
    (hsplit : startMarkers = pre ++ m :: post)
    (hpre : ∀ x ∈ pre, pyFind t x = none)
    (hm : (pyFind t m).isSome) :
    primaryStart t = pyFind t m := by
  obtain ⟨v, hv⟩ := Option.isSome_iff_exists.mp hm
  unfold primaryStart
  rw [hsplit, findSome?_append_none _ _ _ hpre]
  simp [List.findSome?_cons, hv]

/-- C2 witness: in `c2text` the lower-priority marker `"; retract extruder"`
occurs at position 0, before the top-priority `";LAYER:0"`; the locator still
picks the latter's position. -/
theorem c2_start_marker_priority_witness :
    primaryStart c2text = pyFind c2text ";LAYER:0".toList ∧
    pyFind c2text ";LAYER:0".toList ≠ some 0 ∧
    pyFind c2text "; retract extruder".toList = some 0 :=
  ⟨c2_start_marker_priority c2text ";LAYER:0".toList []
      ["; layer 0".toList, ";TYPE:WALL-OUTER".toList, "G1 Z0.3".toList,
       "; retract extruder".toList]
      rfl (by simp) (by decide),
   by decide, by decide⟩

-- ===== C5: end < start is rejected =====

/-- C5: whenever the located end position is strictly below the located start
position, `find_gcode_sections` fails (the Python slice `text[start:end]` is
empty there, so the minimum-body-length guard rejects the document); no
document with reversed boundaries is ever returned. -/
theorem c5_reversed_bounds_rejected (t : LC) (s e : Nat)
    (hb : resolvedBounds t = (some s, some e)) (hlt : e < s) :
    find_gcode_sections t = .error .bodyTooShort := by
  unfold find_gcode_sections
  rw [hb]
  have h0 : e - s = 0 := by omega
  simp [h0]

/-- C5 witness: a text whose primary end marker sits before its primary start
marker is rejected. -/
theorem c5_reversed_bounds_rejected_witness :
    resolvedBounds c5text = (some 12, some 0) ∧ (0 : Nat) < 12 ∧
    find_gcode_sections c5text = .error .bodyTooShort :=
  ⟨by decide, by decide,
   c5_reversed_bounds_rejected c5text 12 0 (by decide) (by decide)⟩

-- ===== C6: minimum body length =====

/-- C6: whenever the located body (the text between the resolved start and
end positions) is shorter than 100 characters, `find_gcode_sections` fails
with the body-too-short parse error, independent of the surrounding header
and footer; and it never returns a document whose body is shorter than 100
characters. -/
theorem c6_min_body_length (t : LC) :
    (∀ s e, resolvedBounds t = (some s, some e) →
       ((t.drop s).take (e - s)).length < 100 →
       find_gcode_sections t = .error .bodyTooShort) ∧
    (∀ d, find_gcode_sections t = .ok d → 100 ≤ d.body.length) := by
  constructor
  · intro s e hb hshort
    unfold find_gcode_sections
    rw [hb]
    simp only [if_pos hshort]
  · intro d h
    unfold find_gcode_sections at h
    rcases hb : resolvedBounds t with ⟨s, e⟩
    rw [hb] at h
    cases s with
    | none => simp at h
    | some sv =>
      cases e with
      | none => simp at h
      | some ev =>
        simp only at h
        split at h
        · exact absurd h (by simp)
        · rename_i hlen
          cases h
          simpa using Nat.le_of_not_lt hlen

/-- C6 witness: a successfully located document has a body of at least 100
characters, and a text whose located body is short is rejected. -/
theorem c6_min_body_length_witness :
    100 ≤ c6doc.body.length ∧
    find_gcode_sections ";LAYER:0 x M104 S0".toList = .error .bodyTooShort :=
  ⟨(c6_min_body_length c6text).2 c6doc rfl,
   (c6_min_body_length ";LAYER:0 x M104 S0".toList).1 0 11 (by decide) (by decide)⟩

-- ===== C4: fallback vs already-resolved boundaries =====

theorem fallbackStep_keeps_start (t line : LC) (s e : Option Nat)
    (hs : s.isSome) : (fallbackStep t (s, e) line).1 = s := by
  cases s with
  | none => simp at hs
  | some v => simp [fallbackStep]

theorem foldl_fallback_keeps_start (t : LC) :
    ∀ (lines : List LC) (p : Option Nat × Option Nat), p.1.isSome →
      ((lines.foldl (fallbackStep t) p).1) = p.1 := by
  intro lines
  induction lines with
  | nil => intro p _; rfl
  | cons l ls ih =>
    intro p hp
    rcases p with ⟨s, e⟩
    have h1 : (fallbackStep t (s, e) l).1 = s := fallbackStep_keeps_start t l s e hp
    have h2 : fallbackStep t (s, e) l = (s, (fallbackStep t (s, e) l).2) :=
      Prod.ext h1 rfl
    simp only [List.foldl_cons]
    rw [h2]
    exact ih (s, (fallbackStep t (s, e) l).2) hp

/-- C4 (amended): the fallback pass never overwrites an already-resolved
start boundary, and when the primary scan resolved both boundaries the
fallback does not run at all; but (see the counterexample) a primary-resolved
end boundary IS overwritten whenever the fallback pass runs and encounters a
qualifying line, because the source's end assignment is not guarded. -/
theorem c4_fallback_boundaries (t : LC) :
    (∀ p, primaryStart t = some p → (resolvedBounds t).1 = some p) ∧
    (∀ p q, primaryStart t = some p → primaryEnd t = some q →
      resolvedBounds t = (some p, some q)) := by
  constructor
  · intro p hp
    unfold resolvedBounds
    rw [hp]
    cases he : primaryEnd t with
    | none =>
      simp only [he, Option.isNone_none, Bool.or_true, if_true]
      exact foldl_fallback_keeps_start t (splitLines t) (some p, none) rfl
    | some q => simp [he]
  · intro p q hp hq
    unfold resolvedBounds
    rw [hp, hq]
    simp

/-- C4 witness: with both boundaries resolved by the primary scan, the
resolved bounds are exactly the primary ones. -/
theorem c4_fallback_boundaries_witness :
    resolvedBounds c4wtext = (some 0, some 13) :=
  (c4_fallback_boundaries c4wtext).2 0 13 (by decide) (by decide)

/-- C4 counterexample: in `c4text` the primary scan resolves the end boundary
(at position 0, via `"M104 S0"`) but not the start; the fallback pass then
runs and OVERWRITES the resolved end with the position of the last qualifying
line (the `"G28 HOME"` line at 135), so the end position returned differs
from the primary scan's end position — refuting the claim that the fallback
never overwrites an already-resolved boundary. -/
theorem c4_counterexample :
    primaryStart c4text = none ∧ primaryEnd c4text = some 0 ∧
    isOkE (find_gcode_sections c4text) = true ∧
    returnedEndPos (find_gcode_sections c4text) = some 135 ∧
    returnedEndPos (find_gcode_sections c4text) ≠ primaryEnd c4text := by
  refine ⟨by decide, by decide, ?_, ?_, ?_⟩ <;> decide

theorem loopBlocks_count_body (total : Nat) (b : LC) (sec mn : Nat) (sw : LC) :
    ∀ (r i : Nat), (loopBlocks total b sec mn sw i r).countP LoopPiece.isBody = r := by
  intro r
  induction r with
  | zero => intro i; rfl
  | succ r ih =>
    intro i
    by_cases hc : i < total - 1 <;>
      simp [loopBlocks, List.countP_append, List.countP_cons, List.countP_nil,
        ih (i + 1), hc, LoopPiece.isBody]

theorem loopBlocks_count_wait (total : Nat) (b : LC) (sec mn : Nat) (sw : LC) :
    ∀ (r i : Nat), i + r = total →
      (loopBlocks total b sec mn sw i r).countP LoopPiece.isWaitSweep = r - 1 := by
  intro r
  induction r with
  | zero => intro i _; rfl
  | succ r ih =>
    intro i htot
    have hrec := ih (i + 1) (by omega)
    by_cases hc : i < total - 1
    · have hr : 0 < r := by omega
      simp [loopBlocks, List.countP_append, List.countP_cons, List.countP_nil,
        hrec, hc, LoopPiece.isWaitSweep]
      omega
    · have hr : r = 0 := by omega
      simp [loopBlocks, List.countP_append, List.countP_cons, List.countP_nil,
        hrec, hc, LoopPiece.isWaitSweep, hr]

theorem combLoopBlocks_count_base (total : Nat) (b : LC) (sec mn : Nat) (sw : LC) :
    ∀ (r i : Nat), (combLoopBlocks total b sec mn sw i r).countP CombPiece.isBase = r := by
  intro r
  induction r with
  | zero => intro i; rfl
  | succ r ih =>
    intro i
    by_cases hc : i < total - 1 <;>
      simp [combLoopBlocks, List.countP_append, List.countP_cons, List.countP_nil,
        ih (i + 1), hc, CombPiece.isBase]

theorem combLoopBlocks_count_between (total : Nat) (b : LC) (sec mn : Nat) (sw : LC) :
    ∀ (r i : Nat), i + r = total →
      (combLoopBlocks total b sec mn sw i r).countP CombPiece.isBetween = r - 1 := by
  intro r
  induction r with
  | zero => intro i _; rfl
  | succ r ih =>
    intro i htot
    have hrec := ih (i + 1) (by omega)
    by_cases hc : i < total - 1
    · have hr : 0 < r := by omega
      simp [combLoopBlocks, List.countP_append, List.countP_cons, List.countP_nil,
        hrec, hc, CombPiece.isBetween]
      omega
    · have hr : r = 0 := by omega
      simp [combLoopBlocks, List.countP_append, List.countP_cons, List.countP_nil,
        hrec, hc, CombPiece.isBetween, hr]

/-- C3: for every located document and every loop count `n ≥ 1`, the
single-source assembly contains exactly `n` body parts and exactly `n - 1`
inter-loop wait-and-sweep parts (so `n = 1` gives one body and no wait), and
the multi-source combiner's looped sequence likewise contains exactly `n`
copies of the combined base sequence and `n - 1` between-loop waits. -/
theorem c3_loop_counts (doc : GDoc) (n wmin : Nat) (sweep : LC) (home : Bool)
    (base : LC) (hn : 1 ≤ n) :
    ((createLoopedParts doc n wmin sweep home).countP LoopPiece.isBody = n ∧
     (createLoopedParts doc n wmin sweep home).countP LoopPiece.isWaitSweep = n - 1) ∧
    ((buildCombinedParts base n wmin sweep home).countP CombPiece.isBase = n ∧
     (buildCombinedParts base n wmin sweep home).countP CombPiece.isBetween = n - 1) := by
  refine ⟨⟨?_, ?_⟩, ?_, ?_⟩
  · cases home <;>
      simp [createLoopedParts, List.countP_append, List.countP_cons, List.countP_nil,
        loopBlocks_count_body, LoopPiece.isBody]
  · cases home <;>
      simp [createLoopedParts, List.countP_append, List.countP_cons, List.countP_nil,
        loopBlocks_count_wait n doc.body (wmin * 60) wmin sweep n 0 (by omega),
        LoopPiece.isWaitSweep]
  · cases home <;>
      simp [buildCombinedParts, List.countP_append, List.countP_cons, List.countP_nil,
        combLoopBlocks_count_base, CombPiece.isBase]
  · cases home <;>
      simp [buildCombinedParts, List.countP_append, List.countP_cons, List.countP_nil,
        combLoopBlocks_count_between n base (wmin * 60) wmin sweep n 0 (by omega),
        CombPiece.isBetween]

/-- C3 witness: at `n = 2` the single assembly has 2 bodies and 1 wait, and
the combined loop sequence has 2 base copies and 1 between-loop wait. -/
theorem c3_loop_counts_witness :
    ((createLoopedParts ⟨"h".toList, "b".toList, "f".toList⟩ 2 3 "s".toList false).countP
        LoopPiece.isBody = 2 ∧
     (createLoopedParts ⟨"h".toList, "b".toList, "f".toList⟩ 2 3 "s".toList false).countP
        LoopPiece.isWaitSweep = 2 - 1) ∧
    ((buildCombinedParts "B".toList 2 3 "s".toList false).countP CombPiece.isBase = 2 ∧
     (buildCombinedParts "B".toList 2 3 "s".toList false).countP CombPiece.isBetween = 2 - 1) :=
  c3_loop_counts ⟨"h".toList, "b".toList, "f".toList⟩ 2 3 "s".toList false "B".toList
    (by decide)

theorem baseFileBlocks_count_sweep (sB : Bool) (w : Nat) (sw : LC) (total : Nat) :
    ∀ (fs : List (LC × LC)) (i : Nat), i + fs.length = total →
      (baseFileBlocks total sB w sw i fs).countP BPiece.isSweepBF
        = if sB then fs.length - 1 else 0 := by
  intro fs
  induction fs with
  | nil => intro i _; cases sB <;> rfl
  | cons f rest ih =>
    intro i htot
    rcases f with ⟨name, body⟩
    have hrec := ih (i + 1) (by simp at htot ⊢; omega)
    by_cases hc : i < total - 1
    · have hr : 0 < rest.length := by simp at htot; omega
      cases sB <;>
        [skip;
         by_cases hw : 0 < w] <;>
        simp [baseFileBlocks, List.countP_append, List.countP_cons, List.countP_nil,
          hrec, hc, BPiece.isSweepBF, BPiece.isFileWait, *] <;>
        omega
    · have hr : rest.length = 0 := by simp at htot; omega
      cases sB <;>
        simp [baseFileBlocks, List.countP_append, List.countP_cons, List.countP_nil,
          hrec, hc, BPiece.isSweepBF, hr]

theorem baseFileBlocks_count_wait (sB : Bool) (w : Nat) (sw : LC) (total : Nat) :
    ∀ (fs : List (LC × LC)) (i : Nat), i + fs.length = total →
      (baseFileBlocks total sB w sw i fs).countP BPiece.isFileWait
        = if sB ∧ 0 < w then fs.length - 1 else 0 := by
  intro fs
  induction fs with
  | nil => intro i _; rcases sB <;> by_cases hw : 0 < w <;> simp [baseFileBlocks, *] <;> rfl
  | cons f rest ih =>
    intro i htot
    rcases f with ⟨name, body⟩
    have hrec := ih (i + 1) (by simp at htot ⊢; omega)
    by_cases hc : i < total - 1
    · have hr : 0 < rest.length := by simp at htot; omega
      cases sB <;>
        [skip;
         by_cases hw : 0 < w] <;>
        simp [baseFileBlocks, List.countP_append, List.countP_cons, List.countP_nil,
          hrec, hc, BPiece.isFileWait, BPiece.isSweepBF, *] <;>
        omega
    · have hr : rest.length = 0 := by simp at htot; omega
      cases sB <;>
        by_cases hw : 0 < w <;>
        simp [baseFileBlocks, List.countP_append, List.countP_cons, List.countP_nil,
          hrec, hc, BPiece.isFileWait, hr, *]

/-- C1 (amended): in the multi-source combiner's base sequence, the sweep
pattern is emitted between consecutive files exactly when
`sweep_between_files` is true (regardless of `per_file_wait_min`), but the
per-file timed wait is emitted only when BOTH `sweep_between_files` is true
AND `per_file_wait_min > 0` — the wait is nested inside the sweep flag's
guard, not independent of it. Neither is ever emitted after the last file. -/
theorem c1_wait_nested_in_sweep_flag (header : LC) (files : List (LC × LC))
    (sB : Bool) (w : Nat) (sw : LC) :
    (buildBaseParts header files sB w sw).countP BPiece.isSweepBF
      = (if sB then files.length - 1 else 0) ∧
    (buildBaseParts header files sB w sw).countP BPiece.isFileWait
      = (if sB ∧ 0 < w then files.length - 1 else 0) := by
  constructor
  · have h := baseFileBlocks_count_sweep sB w sw files.length files 0 (by simp)
    simp [buildBaseParts, List.countP_append, List.countP_cons, List.countP_nil,
      h, BPiece.isSweepBF]
  · have h := baseFileBlocks_count_wait sB w sw files.length files 0 (by simp)
    simp [buildBaseParts, List.countP_append, List.countP_cons, List.countP_nil,
      h, BPiece.isFileWait]

/-- C1 counterexample: two documents, `sweep_between_files = false`,
`per_file_wait_min = 5 > 0`. The claim predicts one timed wait between the
pair regardless of the sweep flag; the code emits none. -/
theorem c1_counterexample :
    ¬ ((buildBaseParts "h".toList [("a".toList, "b1".toList), ("b".toList, "b2".toList)]
          false 5 "s".toList).countP BPiece.isFileWait = 2 - 1) := by
  decide

theorem combineDocs_eq_core (docs : List (LC × GDoc)) (n w : Nat) (sB : Bool)
    (pf : Nat) (sw : LC) (home : Bool) :
    combineDocs docs n w sB pf sw home
      = combineDocsCore (docs.map stripF) n w sB pf sw home := by
  unfold combineDocs combineDocsCore
  simp [List.head?_map, List.map_map, Option.map_map, Function.comp_def, stripF]

theorem baseFileBlocks_bodies (sB : Bool) (w : Nat) (sw : LC) (total : Nat) :
    ∀ (fs : List (LC × LC)) (i : Nat),
      (baseFileBlocks total sB w sw i fs).filterMap bodyOfB = fs.map (fun p => p.2) := by
  intro fs
  induction fs with
  | nil => intro i; rfl
  | cons f rest ih =>
    intro i
    rcases f with ⟨name, body⟩
    by_cases hc : i < total - 1 <;>
      by_cases hw : 0 < w <;>
      cases sB <;>
      simp [baseFileBlocks, List.filterMap_append, List.filterMap_cons, bodyOfB,
        ih (i + 1), hc, hw]

theorem buildCombinedParts_ends (base : LC) (n w : Nat) (sw : LC) (home : Bool) :
    buildCombinedParts base n w sw home
      = (CombPiece.topMark
           :: combLoopBlocks n base (w * 60) w sw 0 n
           ++ [.finalMarkC home, .sweepC sw]
           ++ (if home then [] else [.homeC]))
        ++ [.endMark] := by
  simp [buildCombinedParts]

/-- C10: the multi-source combiner discards every document's footer: its
output depends only on each document's name, header, and body (so changing
any footer never changes the output); the base sequence starts with the first
document's header piece, carries exactly the bodies of the documents in
order, and the full output ends with the closing marker rather than any
footer. -/
theorem c10_footers_discarded (d0 : LC × GDoc) (rest : List (LC × GDoc))
    (n w : Nat) (sB : Bool) (pf : Nat) (sw : LC) (home : Bool) :
    (∀ ds₂, (d0 :: rest).map stripF = ds₂.map stripF →
       combineDocs (d0 :: rest) n w sB pf sw home = combineDocs ds₂ n w sB pf sw home) ∧
    ((buildBaseParts d0.2.header ((d0 :: rest).map (fun p => (p.1, p.2.body))) sB pf sw).filterMap
        bodyOfB = (d0 :: rest).map (fun p => p.2.body)) ∧
    ((buildBaseParts d0.2.header ((d0 :: rest).map (fun p => (p.1, p.2.body))) sB pf sw).head?
        = some (.headerB d0.2.header)) ∧
    endsWithL (combineDocs (d0 :: rest) n w sB pf sw home) combinerEndMark = true := by
  refine ⟨?_, ?_, ?_, ?_⟩
  · intro ds₂ hmap
    rw [combineDocs_eq_core, combineDocs_eq_core, hmap]
  · simp [buildBaseParts, List.filterMap_append, List.filterMap_cons, bodyOfB,
      baseFileBlocks_bodies, List.map_map, Function.comp]
  · simp [buildBaseParts]
  · unfold combineDocs
    rw [buildCombinedParts_ends, List.map_append]
    simp only [List.map_cons, List.map_nil]
    rw [joinLC_append_singleton]
    have hrender : renderCombPiece .endMark = combinerEndMark := rfl
    rw [hrender]
    exact endsWithL_append _ _

/-- C10 witness: two document lists differing only in their footers produce
identical combined output. -/
theorem c10_footers_discarded_witness :
    combineDocs c10docsA 2 1 true 1 "s".toList false
      = combineDocs c10docsB 2 1 true 1 "s".toList false :=
  (c10_footers_discarded ("f1".toList, ⟨"hdr1".toList, "body1".toList, "FOOTER-ONE".toList⟩)
      [("f2".toList, ⟨"hdr2".toList, "body2".toList, "FOOTER-TWO".toList⟩)]
      2 1 true 1 "s".toList false).1 c10docsB (by decide)

-- ===== C7: limit guard semantics and pipeline ordering =====

theorem sweep_kb_iff (s : LC) :
    ((MAX_CUSTOM_SWEEP_KB : ℚ) < (utf8Len s : ℚ) / 1024) ↔
      MAX_CUSTOM_SWEEP_KB * 1024 < utf8Len s := by
  rw [lt_div_iff₀ (by norm_num)]
  norm_cast

/-- C7: the limit guard fails exactly when the loop count exceeds the
configured maximum (50), or the file count exceeds the configured maximum
(20), or a non-empty override pattern's UTF-8 encoded size exceeds the
configured ceiling (64 KB — only checked when an override is supplied); and
in the processing pipeline the guard runs before anything else, so on guard
failure the result is the validation error no matter what either assembler
would do — no assembler is ever invoked. -/
theorem c7_limit_guard (l f : Nat) (s : LC) (files : List (LC × List ZEntry)) :
    (isOkE (enforce_limits l f s) = false ↔
      (MAX_LOOPS < l ∨ MAX_FILES < f ∨
        (s ≠ [] ∧ MAX_CUSTOM_SWEEP_KB * 1024 < utf8Len s))) ∧
    (∀ e, enforce_limits l files.length s = .error e →
      ∀ asmSingle asmMulti,
        processRequest asmSingle asmMulti files l s = .error (.validation e)) := by
  constructor
  · unfold enforce_limits
    split_ifs with h1 h2 h3
    · simp [isOkE, h1]
    · simp [isOkE, h1, h2]
    · rw [sweep_kb_iff] at h3
      simp [isOkE, h3]
    · rw [sweep_kb_iff] at h3
      simp only [isOkE]
      constructor
      · intro h; exact absurd h (by simp)
      · intro h
        rcases h with h | h | h
        · exact absurd h h1
        · exact absurd h h2
        · exact absurd h h3
  · intro e he asmSingle asmMulti
    unfold processRequest
    rw [he]

/-- C7 witness: a loop count of 51 trips the guard before any assembly, and
the pipeline result is the validation error independent of the assemblers. -/
theorem c7_limit_guard_witness :
    processRequest (fun _ => .ok []) (fun _ => .ok [])
      ([] : List (LC × List ZEntry)) 51 [] = .error (.validation .loops) :=
  (c7_limit_guard 51 0 [] []).2 .loops rfl (fun _ => .ok []) (fun _ => .ok [])

-- ===== C8: output size checked after assembly, never truncated =====

theorem size_mb_iff (l : LC) :
    ((MAX_OUTPUT_GCODE_MB : ℚ) < approx_size_mb l) ↔
      MAX_OUTPUT_GCODE_MB * (1024 * 1024) < utf8Len l := by
  unfold approx_size_mb
  rw [lt_div_iff₀ (by norm_num)]
  norm_cast

/-- C8: both assemblers compare the fully assembled text's UTF-8 size against
the 40 MB ceiling only after assembly completes: a successful result always
is the complete assembly with encoded size within the ceiling, and when the
complete assembly exceeds the ceiling the call fails with the size error and
returns no (truncated or partial) output. -/
theorem c8_output_size_check (t : LC) (n w : Nat) (o : Option LC) (home : Bool)
    (files : List (LC × List ZEntry)) (sB : Bool) (pf : Nat) :
    (∀ s, create_looped_gcode t n w o home = .ok s →
        utf8Len s ≤ MAX_OUTPUT_GCODE_MB * (1024 * 1024) ∧
        ∀ doc, find_gcode_sections t = .ok doc →
          s = renderLoopedAssembly doc n w o home) ∧
    (∀ doc, find_gcode_sections t = .ok doc →
        MAX_OUTPUT_GCODE_MB * (1024 * 1024) < utf8Len (renderLoopedAssembly doc n w o home) →
        create_looped_gcode t n w o home = .error .size) ∧
    (∀ s, build_combined_looped_gcode files n w sB pf o home = .ok s →
        utf8Len s ≤ MAX_OUTPUT_GCODE_MB * (1024 * 1024) ∧
        ∀ docs, parseAllFiles files = .ok docs →
          s = combineDocs docs n w sB pf (resolveSweep o) home) ∧
    (∀ docs, parseAllFiles files = .ok docs →
        MAX_OUTPUT_GCODE_MB * (1024 * 1024) <
            utf8Len (combineDocs docs n w sB pf (resolveSweep o) home) →
        build_combined_looped_gcode files n w sB pf o home = .error .size) := by
  refine ⟨?_, ?_, ?_, ?_⟩
  · intro s hs
    unfold create_looped_gcode at hs
    cases hp : find_gcode_sections t with
    | error e => rw [hp] at hs; exact absurd hs (by simp)
    | ok doc =>
      rw [hp] at hs
      simp only [gt_iff_lt] at hs
      split at hs
      · exact absurd hs (by simp)
      · rename_i hsize
        rw [size_mb_iff] at hsize
        cases hs
        refine ⟨by omega, ?_⟩
        intro doc' hdoc'
        injection hdoc' with hd
        rw [hd]
  · intro doc hdoc hbig
    unfold create_looped_gcode
    rw [hdoc]
    simp only [gt_iff_lt]
    rw [if_pos ((size_mb_iff _).mpr hbig)]
  · intro s hs
    unfold build_combined_looped_gcode at hs
    cases hq : parseAllFiles files with
    | error e => rw [hq] at hs; exact absurd hs (by simp)
    | ok docs =>
      rw [hq] at hs
      simp only [gt_iff_lt] at hs
      split at hs
      · exact absurd hs (by simp)
      · rename_i hsize
        rw [size_mb_iff] at hsize
        cases hs
        refine ⟨by omega, ?_⟩
        intro docs' hdocs'
        injection hdocs' with hd
        rw [hd]
  · intro docs hdocs hbig
    unfold build_combined_looped_gcode
    rw [hdocs]
    simp only [gt_iff_lt]
    rw [if_pos ((size_mb_iff _).mpr hbig)]

/-- C8 witness: a concrete successful single-source assembly is the complete
rendered text and its encoded size is within the 40 MB ceiling. -/
theorem c8_output_size_check_witness :
    utf8Len c8out ≤ MAX_OUTPUT_GCODE_MB * (1024 * 1024) ∧
    ∀ doc, find_gcode_sections c6text = .ok doc →
      c8out = renderLoopedAssembly doc 2 1 none false :=
  (c8_output_size_check c6text 2 1 none false [] true 0).1 c8out (by
    have hlt : ¬ ((MAX_OUTPUT_GCODE_MB : ℚ) < approx_size_mb c8out) := by
      rw [size_mb_iff]
      decide
    show (if (MAX_OUTPUT_GCODE_MB : ℚ) < approx_size_mb c8out
          then Except.error GErr.size else Except.ok c8out) = Except.ok c8out
    rw [if_neg hlt])

-- ===== C9: container rewriter =====

theorem find?_ename_self (pkg : List ZEntry)
    (hnd : (pkg.map (fun e => e.ename)).Nodup) :
    ∀ e ∈ pkg, pkg.find? (fun x => x.ename == e.ename) = some e := by
  induction pkg with
  | nil => intro e he; simp at he
  | cons a rest ih =>
    intro e he
    rw [List.map_cons, List.nodup_cons] at hnd
    rcases List.mem_cons.mp he with rfl | hmem
    · simp [List.find?]
    · have hne : a.ename ≠ e.ename := by
        intro hcontra
        exact hnd.1 (hcontra ▸ List.mem_map_of_mem (fun x => x.ename) hmem)
      have : (a.ename == e.ename) = false := beq_eq_false_iff_ne.mpr hne
      simp only [List.find?, this]
      exact ih hnd.2 e hmem

/-- C9 (amended): the container rewriter replaces only the first entry whose
name ends in `.gcode`; every other entry of the output keeps its name and its
logical content (so re-reading the rewritten package yields the new text for
the target and byte-identical content for every other entry) — but every
output entry is re-encoded with the DEFLATED method, so the stored form
(compression) of non-target entries is NOT preserved byte-for-byte. -/
theorem c9_rewrite_entries (pkg : List ZEntry) (t target : LC) (restg : List LC)
    (hg : (pkg.map (fun e => e.ename)).filter (fun n => endsWithL n ".gcode".toList)
            = target :: restg)
    (hnd : (pkg.map (fun e => e.ename)).Nodup) :
    wrap_in_3mf t pkg = .ok (pkg.map (fun e =>
      if e.ename = target then ⟨e.ename, t, 8⟩ else ⟨e.ename, e.content, 8⟩)) := by
  unfold wrap_in_3mf
  rw [hg]
  dsimp only
  rw [List.map_map]
  congr 1
  apply List.map_congr_left
  intro e he
  have hread : zread pkg e.ename = e.content := by
    unfold zread
    rw [find?_ename_self pkg hnd e he]
    rfl
  by_cases hcase : e.ename = target
  · simp [Function.comp, hcase]
  · simp [Function.comp, hcase, hread]

/-- C9 witness (amended theorem): rewriting a two-entry package replaces the
`.gcode` entry's content and keeps the other entry's name and content, while
re-encoding both entries with method 8 (DEFLATED). -/
theorem c9_rewrite_entries_witness :
    wrap_in_3mf "NEW".toList c9pkgW = .ok (c9pkgW.map (fun e =>
      if e.ename = "m.gcode".toList then ⟨e.ename, "NEW".toList, 8⟩
      else ⟨e.ename, e.content, 8⟩)) :=
  c9_rewrite_entries c9pkgW "NEW".toList "m.gcode".toList [] (by decide) (by decide)

/-- C9 counterexample: the original package stores `b.txt` with method 0
(STORED); the rewritten package stores it with method 8 (DEFLATED), so the
non-target entry is NOT preserved byte-for-byte including its compression,
refuting that part of the claim (its logical content is preserved). -/
theorem c9_counterexample :
    wrap_in_3mf "NEW".toList c9pkg
      = .ok [⟨"a.gcode".toList, "NEW".toList, 8⟩, ⟨"b.txt".toList, "BB".toList, 8⟩] ∧
    (⟨"b.txt".toList, "BB".toList, 0⟩ : ZEntry) ∈ c9pkg ∧
    (⟨"b.txt".toList, "BB".toList, 8⟩ : ZEntry) ≠ ⟨"b.txt".toList, "BB".toList, 0⟩ :=
  ⟨rfl, by decide, by decide⟩
